import Mathlib

/-!
# The aos REPL loop (`src/index.js`)

A shallow embedding of the function `repl` of `src/index.js` (lines 84-225): one call of
`repl` reads one line and handles it.  The mutable variables `editorMode`, `editorData` and
`globalThis.prompt` are the fields of `Session`; every side effect of `repl` is recorded, in
program order, as an `Event`; the imported capabilities (`monitor`, `unmonitor`,
`loadBlueprint`, `load`, `evaluate`) are stubs whose outcome is a parameter of the step.
The `rl.on('history', ...)` handler only calls `history.concat(e)`, which builds a new array
and drops it, so it has no effect and is left out.
-/

namespace Aos

/-! ## Strings -/

/-- The code points removed by `String.prototype.trim`: the WhiteSpace and LineTerminator
productions of ECMAScript. -/
def isJsWhiteSpace (c : Char) : Bool :=
  let n := c.toNat
  n == 0x09 || n == 0x0A || n == 0x0B || n == 0x0C || n == 0x0D || n == 0x20 ||
  n == 0xA0 || n == 0x1680 || (0x2000 ≤ n && n ≤ 0x200A) || n == 0x2028 || n == 0x2029 ||
  n == 0x202F || n == 0x205F || n == 0x3000 || n == 0xFEFF

/-- The method `line.trim()`. -/
def trim (line : String) : String :=
  ⟨((line.data.dropWhile isJsWhiteSpace).reverse.dropWhile isJsWhiteSpace).reverse⟩

/-- The test `/^lit/.test(line)` for a literal `lit`: `line` begins with `lit`. -/
def startsWith (lit line : String) : Bool :=
  lit.data.isPrefixOf line.data

/-- One hexadecimal digit, lower case, as `JSON.stringify` writes it. -/
def hexDigit (n : Nat) : Char :=
  if n < 10 then Char.ofNat (48 + n) else Char.ofNat (87 + n)

/-- The escape of one character inside a JSON string (QuoteJSONString). -/
def quoteJSONChar (c : Char) : List Char :=
  if c = '"' then ['\\', '"']
  else if c = '\\' then ['\\', '\\']
  else if c.toNat = 0x08 then ['\\', 'b']
  else if c.toNat = 0x0C then ['\\', 'f']
  else if c.toNat = 0x0A then ['\\', 'n']
  else if c.toNat = 0x0D then ['\\', 'r']
  else if c.toNat = 0x09 then ['\\', 't']
  else if c.toNat < 0x20 then
    ['\\', 'u', '0', '0', hexDigit (c.toNat / 16), hexDigit (c.toNat % 16)]
  else [c]

/-- The value of `JSON.stringify({ data: { output: message } })` (line 205). -/
def stringifyOutput (message : String) : String :=
  "\x7b\"data\":\x7b\"output\":\"" ++ String.mk (message.data.flatMap quoteJSONChar) ++ "\"\x7d\x7d"

/-! ## Data -/

/-- The variables `repl` reads and writes: `editorMode` and `editorData` (lines 69-70) and
`globalThis.prompt` (line 33). -/
structure Session where
  editorMode : Bool
  editorData : String
  prompt : String
deriving DecidableEq, Repr

/-- The object `output.data` with the two fields `repl` reads; `none` is an absent field. -/
structure OutputData where
  output : Option String
  prompt : Option String
deriving DecidableEq, Repr

/-- The value of `result.Output`: the object returned by the remote call, whose `data` may
be missing, or the string built by `JSON.stringify` in the `catch` of line 205. -/
inductive Output where
  | object (data : Option OutputData)
  | text (json : String)
deriving DecidableEq, Repr

/-- Modelled from the spec: `evaluate.js` is not among the sources; the shape of the value
it resolves to follows section 6 (`remoteEvaluate -> { outputText, errorText?,
nextPromptText? }`) and the fields `repl` reads (`Output`, `Error`). -/
structure EvalResult where
  Output : Output
  Error : Option String
deriving DecidableEq, Repr

/-- The background monitor handle held by `cron`. -/
structure Handle where
  id : String
deriving DecidableEq, Repr

/-- Modelled from the spec: `services/live.js` is not among the sources; section 6 gives
`monitor.start(ProcessId) -> Handle`, so `live(id)` (line 82) yields a handle. -/
def live (id : String) : Option Handle :=
  some ⟨id⟩

/-- What is fixed before `repl` first runs: the wallet `jwk`, the process `id` and whether
`process.env.DEBUG` is set. -/
structure Env where
  jwk : String
  id : String
  debug : Bool
deriving DecidableEq, Repr

/-- The variable `cron` inside `repl`: assigned once, at line 82. -/
def cron (env : Env) : Option Handle :=
  live env.id

/-- The outcome of each imported capability during one step; their sources are absent, so
they are parameters.  `monitor` and `unmonitor` give the text they resolve to (section 4.2:
the step displays their textual result); the loaders return the expanded code or throw an
error with a message; `evaluate` resolves to a result or rejects with an error with a
message. -/
structure Caps where
  monitor : String → String → String
  unmonitor : String → String → String
  loadBlueprint : String → Except String String
  load : String → Except String String
  evaluate : String → String → String → Except String EvalResult

/-- The side effects of `repl`, in the order the program performs them. -/
inductive Event where
  /-- `rl.question(query, ...)`: the prompt is shown and one line is read. -/
  | question (query : String)
  /-- `console.log(value)`; `none` is `undefined`. -/
  | log (value : Option String)
  /-- `console.log(chalk.red(text))`. -/
  | logRed (text : String)
  /-- `console.log({ id })` under DEBUG. -/
  | logId (id : String)
  /-- `console.log({ result })` under DEBUG. -/
  | logResult (result : EvalResult)
  /-- `replHelp()`. -/
  | replHelp
  /-- `monitor(jwk, id, ...)`. -/
  | monitor (jwk id : String)
  /-- `unmonitor(jwk, id, ...)`. -/
  | unmonitor (jwk id : String)
  /-- `loadBlueprint(line)`. -/
  | loadBlueprint (line : String)
  /-- `load(line)`. -/
  | load (line : String)
  /-- `cron.stop()`. -/
  | cronStop
  /-- `cron.start()`. -/
  | cronStart
  /-- `spinner.start()`. -/
  | spinnerStart
  /-- `spinner.stop()`. -/
  | spinnerStop
  /-- `printLive()`. -/
  | printLive
  /-- `evaluate(line, id, jwk, ...)`. -/
  | evaluate (line id jwk : String)
  /-- `rl.close()`. -/
  | rlClose
  /-- The call `repl()` that issues the next read. -/
  | repl
  /-- A TypeError thrown by a method call on `null`; the callback stops there. -/
  | typeError
deriving DecidableEq, Repr

/-- The result of one call of `repl`: the variables afterwards and the effects performed. -/
structure Step where
  session : Session
  events : List Event
deriving DecidableEq, Repr

/-- The same step with the effects `evs` performed first. -/
def Step.after (evs : List Event) (r : Step) : Step :=
  ⟨r.session, evs ++ r.events⟩

/-- Whether the step called `repl()` again, that is, whether another read is issued. -/
def Step.reads (r : Step) : Bool :=
  decide (Event.repl ∈ r.events)

/-- The submissions of the `evaluate` calls among the events, in order. -/
def evalCalls : List Event → List String
  | [] => []
  | Event.evaluate line _ _ :: rest => line :: evalCalls rest
  | _ :: rest => evalCalls rest

/-- Whether the event is a call of `evaluate`. -/
def Event.isEvaluate : Event → Bool
  | Event.evaluate _ _ _ => true
  | _ => false

/-- The events performed before the first call of `evaluate`. -/
def beforeEval (evs : List Event) : List Event :=
  evs.takeWhile fun e => !e.isEvaluate

/-- The events performed after the first call of `evaluate`. -/
def afterEval (evs : List Event) : List Event :=
  (evs.dropWhile fun e => !e.isEvaluate).tail

/-- The number of calls of `cron.stop()` among the events. -/
def stops (evs : List Event) : Nat :=
  evs.count Event.cronStop

/-- The number of calls of `cron.start()` among the events. -/
def starts (evs : List Event) : Nat :=
  evs.count Event.cronStart

/-- The values shown by `console.log` as ordinary output, in order. -/
def logged : List Event → List (Option String)
  | [] => []
  | Event.log value :: rest => value :: logged rest
  | _ :: rest => logged rest

/-- The texts shown in red by `console.log(chalk.red(...))`, in order. -/
def loggedRed : List Event → List String
  | [] => []
  | Event.logRed text :: rest => text :: loggedRed rest
  | _ :: rest => loggedRed rest

/-- The arguments of the calls of `load` among the events, in order. -/
def loadCalls : List Event → List String
  | [] => []
  | Event.load line :: rest => line :: loadCalls rest
  | _ :: rest => loadCalls rest

/-- The monitor seen as a running flag: `cron.start()` sets it, `cron.stop()` clears it,
every other event leaves it as it is. -/
def running : Bool → List Event → Bool
  | flag, [] => flag
  | _, Event.cronStart :: rest => running true rest
  | _, Event.cronStop :: rest => running false rest
  | flag, _ :: rest => running flag rest

/-- Whether the loop has terminated: some effect was performed and the last one is not the
call `repl()` that issues the next read. -/
def ended : List Event → Bool
  | [] => false
  | [e] => decide (e ≠ Event.repl)
  | _ :: rest => ended rest

/-- The events that precede the handling of a loaded line: the read itself and the calls of
the two loaders. -/
def Event.isPrelude : Event → Bool
  | Event.question _ => true
  | Event.loadBlueprint _ => true
  | Event.load _ => true
  | _ => false

/-- The value of `output.data?.output`; on a string `output.data` is `undefined`. -/
def Output.dataOutput : Output → Option String
  | .object (some d) => d.output
  | .object none => none
  | .text _ => none

/-- The value of `output.data?.prompt`. -/
def Output.dataPrompt : Output → Option String
  | .object (some d) => d.prompt
  | .object none => none
  | .text _ => none

/-- Truthiness of an optional string: present and not the empty string. -/
def truthy : Option String → Bool
  | some v => decide (v ≠ "")
  | none => false

/-! ## The step -/

/-- Lines 204-205: the value awaited from `evaluate(...).catch(...)`; a rejection becomes
an object whose `Output` is a JSON string. -/
def awaitEvaluate (env : Env) (caps : Caps) (line : String) : EvalResult :=
  match caps.evaluate line env.id env.jwk with
  | .ok r => r
  | .error message => { Output := .text (stringifyOutput message), Error := none }

/-- Lines 207-210: the two logs made when `process.env.DEBUG` is set. -/
def debugLog (env : Env) (result : EvalResult) : List Event :=
  if env.debug then [Event.logId env.id, Event.logResult result] else []

/-- Lines 213-217: `result.Error` in red when it is truthy, else `output.data?.output`. -/
def display (result : EvalResult) : Event :=
  if truthy result.Error then Event.logRed (result.Error.getD "")
  else Event.log result.Output.dataOutput

/-- Line 221: `output.data?.prompt ? output.data?.prompt : prompt`. -/
def nextPrompt (result : EvalResult) (prompt : String) : String :=
  if truthy result.Output.dataPrompt then result.Output.dataPrompt.getD "" else prompt

/-- Lines 194-223: the remote evaluation of `line`, the display of its result and the
update of the prompt. -/
def evaluateLine (env : Env) (caps : Caps) (s : Session) (line : String) : Step :=
  let result := awaitEvaluate env caps line
  let done := [Event.spinnerStart, Event.printLive, Event.evaluate line env.id env.jwk]
    ++ debugLog env result ++ [Event.spinnerStop, display result]
  match cron env with
  | none => ⟨s, done ++ [Event.typeError]⟩
  | some _ =>
    ⟨{ s with prompt := nextPrompt result s.prompt },
      done ++ [Event.cronStart, Event.rlClose, Event.repl]⟩

/-- Lines 149-192 and then the evaluation: `.editor`, `.done`, `.cancel`, the capture of a
line by the editor buffer, and `.exit`. -/
def editorStep (env : Env) (caps : Caps) (s : Session) (line : String) : Step :=
  if line = ".editor" then
    ⟨{ s with editorMode := true },
      (match cron env with
        | some _ => [Event.cronStop]
        | none => [])
      ++ [Event.log (some "<editor mode> use \x27.done\x27 to submit or \x27.cancel\x27 to cancel"),
          Event.rlClose, Event.repl]⟩
  else
    let submitted := s.editorMode = true ∧ line = ".done"
    let line := if submitted then s.editorData else line
    let s := if submitted then { s with editorData := "", editorMode := false } else s
    if s.editorMode = true ∧ line = ".cancel" then
      match cron env with
      | none => ⟨{ s with editorData := "", editorMode := false }, [Event.typeError]⟩
      | some _ =>
        ⟨{ s with editorData := "", editorMode := false },
          [Event.cronStart, Event.rlClose, Event.repl]⟩
    else if s.editorMode = true then
      ⟨{ s with editorData := s.editorData ++ (line ++ "\n") }, [Event.rlClose, Event.repl]⟩
    else if line = ".exit" then
      match cron env with
      | none => ⟨s, [Event.typeError]⟩
      | some _ => ⟨s, [Event.cronStop, Event.log (some "Exiting..."), Event.rlClose]⟩
    else
      evaluateLine env caps s line

/-- Lines 139-147: a line that begins with `.load` is replaced by what `load` returns. -/
def loadStep (env : Env) (caps : Caps) (s : Session) (line : String) : Step :=
  if startsWith ".load" line then
    match caps.load line with
    | .ok code => (editorStep env caps s code).after [Event.load line]
    | .error message =>
      ⟨s, [Event.load line, Event.log (some message), Event.rlClose, Event.repl]⟩
  else
    editorStep env caps s line

/-- Lines 129-137: a line that begins with `.load-blueprint` is replaced by what
`loadBlueprint` returns. -/
def loadBlueprintStep (env : Env) (caps : Caps) (s : Session) (line : String) : Step :=
  if startsWith ".load-blueprint" line then
    match caps.loadBlueprint line with
    | .ok code => (loadStep env caps s code).after [Event.loadBlueprint line]
    | .error message =>
      ⟨s, [Event.loadBlueprint line, Event.log (some message), Event.rlClose, Event.repl]⟩
  else
    loadStep env caps s line

/-- One call of `repl` (lines 84-225) in which `rl.question` reads `line`. -/
def repl (env : Env) (caps : Caps) (s : Session) (line : String) : Step :=
  let asked := Event.question (if s.editorMode then "" else s.prompt)
  if trim line = "" then
    ⟨s, [asked, Event.log none, Event.rlClose, Event.repl]⟩
  else if s.editorMode = false ∧ line = ".help" then
    ⟨s, [asked, Event.replHelp, Event.rlClose, Event.repl]⟩
  else if s.editorMode = false ∧ line = ".monitor" then
    ⟨s, [asked, Event.monitor env.jwk env.id, Event.log (some (caps.monitor env.jwk env.id)),
      Event.rlClose, Event.repl]⟩
  else if s.editorMode = false ∧ line = ".unmonitor" then
    ⟨s, [asked, Event.unmonitor env.jwk env.id,
      Event.log (some (caps.unmonitor env.jwk env.id)), Event.rlClose, Event.repl]⟩
  else
    (loadBlueprintStep env caps s line).after [asked]

/-- The loop: `repl` is called on each line in turn, with the capability outcomes of that
iteration, for as long as the previous call issued another read. -/
def run (env : Env) (s : Session) : List (Caps × String) → Step
  | [] => ⟨s, []⟩
  | (caps, line) :: rest =>
    let r := repl env caps s line
    if r.reads then (run env r.session rest).after r.events else r

/-- The session `repl` first runs in: not in editor mode, empty editor buffer. -/
def initial (prompt : String) : Session :=
  ⟨false, "", prompt⟩

/-! ## Stubs used in the examples -/

/-- Capabilities whose loaders fail with `message` and whose evaluation rejects with
`message`. -/
def failing (message : String) : Caps where
  monitor := fun _ _ => "monitoring"
  unmonitor := fun _ _ => "unmonitoring"
  loadBlueprint := fun _ => .error message
  load := fun _ => .error message
  evaluate := fun _ _ _ => .error message

/-- Capabilities whose evaluation resolves to `result`; the loaders return `code`. -/
def answering (result : EvalResult) (code : String) : Caps where
  monitor := fun _ _ => "monitoring"
  unmonitor := fun _ _ => "unmonitoring"
  loadBlueprint := fun _ => .ok code
  load := fun _ => .ok code
  evaluate := fun _ _ _ => .ok result

/-- A wallet and process id for the examples. -/
def env0 : Env :=
  ⟨"jwk", "pid", false⟩


/-! ## Lemmas on strings -/

theorem trim_eq_empty (line : String) (h : trim line = "") :
    ∀ c ∈ line.data, isJsWhiteSpace c = true := by
  have h1 : ((line.data.dropWhile isJsWhiteSpace).reverse.dropWhile isJsWhiteSpace).reverse
      = [] := by
    have := congrArg String.data h
    simpa [trim] using this
  have h2 : ∀ c ∈ line.data.dropWhile isJsWhiteSpace, isJsWhiteSpace c = true := by
    have h3 := List.reverse_eq_nil_iff.mp h1
    rw [List.dropWhile_eq_nil_iff] at h3
    intro c hc
    exact h3 c (List.mem_reverse.mpr hc)
  have h4 : line.data.dropWhile isJsWhiteSpace = [] := by
    by_contra hne
    have hh := List.head_dropWhile_not isJsWhiteSpace line.data hne
    have := h2 _ (List.head_mem hne)
    simp [this] at hh
  exact List.dropWhile_eq_nil_iff.mp h4

theorem trim_ne_of_mem (line : String) (c : Char) (hc : c ∈ line.data)
    (hw : isJsWhiteSpace c = false) : trim line ≠ "" := by
  intro h
  have := trim_eq_empty line h c hc
  simp [hw] at this

theorem dot_mem_of_startsWith (lit line : String) (c : Char) (hc : c ∈ lit.data)
    (h : startsWith lit line = true) : c ∈ line.data := by
  unfold startsWith at h
  rw [List.isPrefixOf_iff_prefix] at h
  exact h.subset hc

theorem trim_ne_of_load (line : String) (h : startsWith ".load" line = true) :
    trim line ≠ "" :=
  trim_ne_of_mem line '.' (dot_mem_of_startsWith ".load" line '.' (by decide) h) (by decide)

theorem load_of_loadBlueprint (line : String) (h : startsWith ".load-blueprint" line = true) :
    startsWith ".load" line = true := by
  unfold startsWith at *
  rw [List.isPrefixOf_iff_prefix] at *
  exact List.IsPrefix.trans (by decide) h

/-! ## Lemmas on the step -/

theorem evalCalls_append (xs ys : List Event) :
    evalCalls (xs ++ ys) = evalCalls xs ++ evalCalls ys := by
  induction xs with
  | nil => rfl
  | cons e xs ih => cases e <;> simp [evalCalls, ih]

theorem evalCalls_prelude (pre : List Event) (h : ∀ e ∈ pre, e.isPrelude = true) :
    evalCalls pre = [] := by
  induction pre with
  | nil => rfl
  | cons e xs ih =>
    have he := h e (List.mem_cons_self _ _)
    have hx := ih fun e he => h e (List.mem_cons_of_mem _ he)
    cases e <;> simp_all [evalCalls, Event.isPrelude]

theorem count_prelude (pre : List Event) (h : ∀ e ∈ pre, e.isPrelude = true) (e : Event)
    (he : e.isPrelude = false) : pre.count e = 0 := by
  rw [List.count_eq_zero]
  intro hmem
  rw [h e hmem] at he
  cases he

theorem evaluateLine_eq (env : Env) (caps : Caps) (s : Session) (line : String) :
    evaluateLine env caps s line
      = ⟨{ s with prompt := nextPrompt (awaitEvaluate env caps line) s.prompt },
          [Event.spinnerStart, Event.printLive, Event.evaluate line env.id env.jwk]
            ++ debugLog env (awaitEvaluate env caps line)
            ++ [Event.spinnerStop, display (awaitEvaluate env caps line), Event.cronStart,
                Event.rlClose, Event.repl]⟩ := by
  simp [evaluateLine, cron, live]

theorem debugLog_cases (env : Env) (result : EvalResult) :
    debugLog env result = [] ∨ debugLog env result = [Event.logId env.id, Event.logResult result] := by
  unfold debugLog
  split
  · right; rfl
  · left; rfl

theorem display_cases (result : EvalResult) :
    (∃ e, display result = Event.logRed e) ∨ ∃ v, display result = Event.log v := by
  unfold display
  split
  · left; exact ⟨_, rfl⟩
  · right; exact ⟨_, rfl⟩

theorem evalCalls_evaluateLine (env : Env) (caps : Caps) (s : Session) (line : String) :
    evalCalls (evaluateLine env caps s line).events = [line] := by
  rw [evaluateLine_eq]
  rcases debugLog_cases env (awaitEvaluate env caps line) with h | h <;>
    rcases display_cases (awaitEvaluate env caps line) with ⟨e, h2⟩ | ⟨v, h2⟩ <;>
    simp [h, h2, evalCalls]

theorem editorStep_cases (env : Env) (caps : Caps) (s : Session) (line : String) :
    evalCalls (editorStep env caps s line).events = []
    ∨ ∃ s' sub, editorStep env caps s line = evaluateLine env caps s' sub
        ∧ s'.prompt = s.prompt := by
  unfold editorStep
  simp only [cron, live]
  split_ifs <;>
    first
    | (left; simp [evalCalls]; done)
    | (right; exact ⟨_, _, rfl, rfl⟩)

theorem loadStep_cases (env : Env) (caps : Caps) (s : Session) (line : String) :
    evalCalls (loadStep env caps s line).events = []
    ∨ ∃ s' sub pre, loadStep env caps s line = (evaluateLine env caps s' sub).after pre
        ∧ (∀ e ∈ pre, e.isPrelude = true) ∧ s'.prompt = s.prompt := by
  unfold loadStep
  split_ifs
  · cases hl : caps.load line with
    | error m => left; simp [evalCalls]
    | ok code =>
      rcases editorStep_cases env caps s code with h | ⟨s', sub, h, hp⟩
      · left; simp [Step.after, evalCalls_append, h, evalCalls]
      · right
        refine ⟨s', sub, [Event.load line], ?_, ?_, hp⟩
        · simp [h]
        · simp [Event.isPrelude]
  · rcases editorStep_cases env caps s line with h | ⟨s', sub, h, hp⟩
    · left; exact h
    · right
      exact ⟨s', sub, [], by simp [h, Step.after], by simp, hp⟩

theorem loadBlueprintStep_cases (env : Env) (caps : Caps) (s : Session) (line : String) :
    evalCalls (loadBlueprintStep env caps s line).events = []
    ∨ ∃ s' sub pre,
        loadBlueprintStep env caps s line = (evaluateLine env caps s' sub).after pre
        ∧ (∀ e ∈ pre, e.isPrelude = true) ∧ s'.prompt = s.prompt := by
  unfold loadBlueprintStep
  split_ifs
  · cases hl : caps.loadBlueprint line with
    | error m => left; simp [evalCalls]
    | ok code =>
      rcases loadStep_cases env caps s code with h | ⟨s', sub, pre, h, hpre, hp⟩
      · left; simp [Step.after, evalCalls_append, h, evalCalls]
      · right
        refine ⟨s', sub, Event.loadBlueprint line :: pre, ?_, ?_, hp⟩
        · simp [h, Step.after]
        · intro e he
          rcases List.mem_cons.mp he with rfl | he
          · rfl
          · exact hpre e he
  · exact loadStep_cases env caps s line

theorem repl_cases (env : Env) (caps : Caps) (s : Session) (line : String) :
    evalCalls (repl env caps s line).events = []
    ∨ ∃ s' sub pre, repl env caps s line = (evaluateLine env caps s' sub).after pre
        ∧ (∀ e ∈ pre, e.isPrelude = true) ∧ s'.prompt = s.prompt := by
  unfold repl
  simp only
  generalize (if s.editorMode = true then "" else s.prompt) = query
  split_ifs
  · left; simp [evalCalls]
  · left; simp [evalCalls]
  · left; simp [evalCalls]
  · left; simp [evalCalls]
  · rcases loadBlueprintStep_cases env caps s line with h | ⟨s', sub, pre, h, hpre, hp⟩
    · left; simp [Step.after, evalCalls_append, h, evalCalls]
    · right
      refine ⟨s', sub, Event.question query :: pre, ?_, ?_, hp⟩
      · simp [h, Step.after]
      · intro e he
        rcases List.mem_cons.mp he with rfl | he
        · rfl
        · exact hpre e he

theorem not_isEvaluate_of_prelude (e : Event) (h : e.isPrelude = true) :
    (!e.isEvaluate) = true := by
  cases e <;> first | rfl | cases h

theorem beforeEval_prelude (pre xs : List Event) (h : ∀ e ∈ pre, e.isPrelude = true) :
    beforeEval (pre ++ xs) = pre ++ beforeEval xs := by
  unfold beforeEval
  exact List.takeWhile_append_of_pos fun e he => not_isEvaluate_of_prelude e (h e he)

theorem afterEval_prelude (pre xs : List Event) (h : ∀ e ∈ pre, e.isPrelude = true) :
    afterEval (pre ++ xs) = afterEval xs := by
  unfold afterEval
  rw [List.dropWhile_append_of_pos fun e he => not_isEvaluate_of_prelude e (h e he)]

theorem not_loadBlueprint_of_not_load (line : String) (h : startsWith ".load" line = false) :
    startsWith ".load-blueprint" line = false := by
  cases hb : startsWith ".load-blueprint" line with
  | false => rfl
  | true => rw [load_of_loadBlueprint line hb] at h; cases h

theorem repl_code_line (env : Env) (caps : Caps) (s : Session) (line : String)
    (hmode : s.editorMode = false) (hblank : trim line ≠ "")
    (hmeta : line ∉ [".help", ".monitor", ".unmonitor", ".editor", ".exit"])
    (hload : startsWith ".load" line = false) :
    repl env caps s line = (evaluateLine env caps s line).after [Event.question s.prompt] := by
  have hb := not_loadBlueprint_of_not_load line hload
  simp only [List.mem_cons, List.mem_singleton, not_or, List.mem_nil_iff, or_false] at hmeta
  obtain ⟨h1, h2, h3, h4, h5⟩ := hmeta
  simp [repl, loadBlueprintStep, loadStep, editorStep, hmode, hblank, hload, hb, h1, h2, h3,
    h4, h5]

theorem evaluateLine_session (env : Env) (caps : Caps) (s : Session) (line : String) :
    (evaluateLine env caps s line).session
      = ⟨s.editorMode, s.editorData, nextPrompt (awaitEvaluate env caps line) s.prompt⟩ := by
  rw [evaluateLine_eq]

theorem editorStep_invariant (env : Env) (caps : Caps) (s : Session) (line : String)
    (hinv : s.editorMode = false → s.editorData = "")
    (hnext : (editorStep env caps s line).session.editorMode = false) :
    (editorStep env caps s line).session.editorData = "" := by
  revert hnext
  unfold editorStep
  simp only [cron, live]
  split_ifs <;> simp_all [evaluateLine_session]

theorem loadStep_invariant (env : Env) (caps : Caps) (s : Session) (line : String)
    (hinv : s.editorMode = false → s.editorData = "")
    (hnext : (loadStep env caps s line).session.editorMode = false) :
    (loadStep env caps s line).session.editorData = "" := by
  revert hnext
  unfold loadStep
  split_ifs
  · cases caps.load line with
    | error m => exact hinv
    | ok code => exact editorStep_invariant env caps s code hinv
  · exact editorStep_invariant env caps s line hinv

theorem loadBlueprintStep_invariant (env : Env) (caps : Caps) (s : Session) (line : String)
    (hinv : s.editorMode = false → s.editorData = "")
    (hnext : (loadBlueprintStep env caps s line).session.editorMode = false) :
    (loadBlueprintStep env caps s line).session.editorData = "" := by
  revert hnext
  unfold loadBlueprintStep
  split_ifs
  · cases caps.loadBlueprint line with
    | error m => exact hinv
    | ok code => exact loadStep_invariant env caps s code hinv
  · exact loadStep_invariant env caps s line hinv

theorem repl_invariant (env : Env) (caps : Caps) (s : Session) (line : String)
    (hinv : s.editorMode = false → s.editorData = "")
    (hnext : (repl env caps s line).session.editorMode = false) :
    (repl env caps s line).session.editorData = "" := by
  revert hnext
  unfold repl
  simp only
  generalize (if s.editorMode = true then "" else s.prompt) = query
  split_ifs
  · exact hinv
  · exact hinv
  · exact hinv
  · exact hinv
  · exact loadBlueprintStep_invariant env caps s line hinv

theorem run_invariant (env : Env) (inputs : List (Caps × String)) (s : Session)
    (hinv : s.editorMode = false → s.editorData = "")
    (hnext : (run env s inputs).session.editorMode = false) :
    (run env s inputs).session.editorData = "" := by
  induction inputs generalizing s with
  | nil => exact hinv hnext
  | cons input rest ih =>
    obtain ⟨caps, line⟩ := input
    revert hnext
    unfold run
    simp only
    split_ifs
    · exact ih _ (repl_invariant env caps s line hinv)
    · exact repl_invariant env caps s line hinv

theorem repl_editor_enter (env : Env) (caps : Caps) (s : Session)
    (hmode : s.editorMode = false) :
    repl env caps s ".editor"
      = ⟨⟨true, s.editorData, s.prompt⟩,
          [Event.question s.prompt, Event.cronStop,
            Event.log (some "<editor mode> use \x27.done\x27 to submit or \x27.cancel\x27 to cancel"),
            Event.rlClose, Event.repl]⟩ := by
  have h1 : trim ".editor" ≠ "" := by decide
  have h2 : startsWith ".load-blueprint" ".editor" = false := by decide
  have h3 : startsWith ".load" ".editor" = false := by decide
  simp [repl, loadBlueprintStep, loadStep, editorStep, Step.after, cron, live, hmode, h1, h2,
    h3]

theorem repl_editor_capture (env : Env) (caps : Caps) (s : Session) (line : String)
    (hmode : s.editorMode = true) (hblank : trim line ≠ "")
    (hload : startsWith ".load" line = false) (heditor : line ≠ ".editor")
    (hdone : line ≠ ".done") (hcancel : line ≠ ".cancel") :
    repl env caps s line
      = ⟨⟨true, s.editorData ++ (line ++ "\n"), s.prompt⟩,
          [Event.question "", Event.rlClose, Event.repl]⟩ := by
  have hb := not_loadBlueprint_of_not_load line hload
  simp [repl, loadBlueprintStep, loadStep, editorStep, Step.after, hmode, hblank, hload, hb,
    heditor, hdone, hcancel]

theorem repl_editor_done (env : Env) (caps : Caps) (s : Session)
    (hmode : s.editorMode = true) (hbuf : s.editorData ≠ ".exit") :
    repl env caps s ".done"
      = (evaluateLine env caps ⟨false, "", s.prompt⟩ s.editorData).after [Event.question ""] := by
  have h1 : trim ".done" ≠ "" := by decide
  have h2 : startsWith ".load-blueprint" ".done" = false := by decide
  have h3 : startsWith ".load" ".done" = false := by decide
  simp [repl, loadBlueprintStep, loadStep, editorStep, Step.after, hmode, h1, h2, h3, hbuf]

theorem join_lines_ne_exit (lines : List String) :
    String.join (lines.map fun l => l ++ "\n") ≠ ".exit" := by
  rcases List.eq_nil_or_concat lines with rfl | ⟨init, l, rfl⟩
  · decide
  · intro h
    have h2 := congrArg (fun t : String => t.data.getLast?) h
    simp [String.join, List.foldl_append] at h2

theorem run_editor_capture (env : Env) (inputs tail : List (Caps × String)) (s : Session)
    (hmode : s.editorMode = true)
    (hlines : ∀ input ∈ inputs, trim input.2 ≠ "" ∧ startsWith ".load" input.2 = false
      ∧ input.2 ≠ ".editor" ∧ input.2 ≠ ".done" ∧ input.2 ≠ ".cancel") :
    ∃ evs, evalCalls evs = []
      ∧ run env s (inputs ++ tail)
        = (run env ⟨true, inputs.foldl (fun b input => b ++ (input.2 ++ "\n")) s.editorData,
            s.prompt⟩ tail).after evs := by
  induction inputs generalizing s with
  | nil =>
    refine ⟨[], rfl, ?_⟩
    cases s
    simp_all [Step.after]
  | cons input rest ih =>
    obtain ⟨caps, line⟩ := input
    obtain ⟨h1, h2, h3, h4, h5⟩ := hlines (caps, line) (List.mem_cons_self _ _)
    have hstep := repl_editor_capture env caps s line hmode h1 h2 h3 h4 h5
    obtain ⟨evs, hevs, hrun⟩ := ih ⟨true, s.editorData ++ (line ++ "\n"), s.prompt⟩ rfl
      fun input hin => hlines input (List.mem_cons_of_mem _ hin)
    refine ⟨[Event.question "", Event.rlClose, Event.repl] ++ evs, ?_, ?_⟩
    · rw [evalCalls_append, hevs]; rfl
    · simp only [List.cons_append, run, hstep, Step.reads, List.foldl_cons]
      simp [hrun, Step.after]

theorem repl_failure_logs_undefined (env : Env) (caps : Caps) (s : Session) (line m : String)
    (hmode : s.editorMode = false) (hblank : trim line ≠ "")
    (hmeta : line ∉ [".help", ".monitor", ".unmonitor", ".editor", ".exit"])
    (hload : startsWith ".load" line = false)
    (hfail : caps.evaluate line env.id env.jwk = .error m) :
    logged (repl env caps s line).events = [none]
    ∧ (repl env caps s line).session = s
    ∧ (repl env caps s line).reads = true := by
  have hres : awaitEvaluate env caps line = ⟨.text (stringifyOutput m), none⟩ := by
    simp [awaitEvaluate, hfail]
  rw [repl_code_line env caps s line hmode hblank hmeta hload, evaluateLine_eq, hres]
  cases hd : env.debug <;>
    simp [Step.after, Step.reads, logged, debugLog, display, nextPrompt, truthy,
      Output.dataOutput, Output.dataPrompt, hd]

theorem evaluateLine_reads (env : Env) (caps : Caps) (s : Session) (line : String) :
    (evaluateLine env caps s line).reads = true := by
  rw [evaluateLine_eq]
  simp [Step.reads]

theorem repl_mem_evaluateLine (env : Env) (caps : Caps) (s : Session) (line : String) :
    Event.repl ∈ (evaluateLine env caps s line).events := by
  rw [evaluateLine_eq]
  simp

theorem reads_after (pre : List Event) (r : Step) (h : Event.repl ∉ pre) :
    (r.after pre).reads = r.reads := by
  simp [Step.after, Step.reads, h]

theorem editorStep_ends (env : Env) (caps : Caps) (s : Session) (line : String)
    (hend : (editorStep env caps s line).reads = false) :
    (line = ".exit" ∧ s.editorMode = false)
    ∨ (s.editorMode = true ∧ s.editorData = ".exit") := by
  revert hend
  unfold editorStep
  simp only [cron, live]
  split_ifs <;> simp_all [Step.reads, repl_mem_evaluateLine]

theorem loadStep_ends (env : Env) (caps : Caps) (s : Session) (line : String)
    (hend : (loadStep env caps s line).reads = false) :
    (line = ".exit" ∧ s.editorMode = false)
    ∨ (startsWith ".load" line = true ∧ caps.load line = .ok ".exit" ∧ s.editorMode = false)
    ∨ (s.editorMode = true ∧ s.editorData = ".exit") := by
  revert hend
  unfold loadStep
  split_ifs with hl
  · cases hc : caps.load line with
    | error m => simp [Step.reads]
    | ok code =>
      simp only
      rw [reads_after _ _ (by simp)]
      intro hend
      rcases editorStep_ends env caps s code hend with ⟨h1, h2⟩ | h
      · right; left; exact ⟨hl, by rw [h1], h2⟩
      · right; right; exact h
  · intro hend
    rcases editorStep_ends env caps s line hend with h | h
    · left; exact h
    · right; right; exact h

theorem loadBlueprintStep_ends (env : Env) (caps : Caps) (s : Session) (line : String)
    (hend : (loadBlueprintStep env caps s line).reads = false) :
    (line = ".exit" ∧ s.editorMode = false)
    ∨ (startsWith ".load" line = true ∧ s.editorMode = false
        ∧ (caps.load line = .ok ".exit"
          ∨ ∃ code, caps.loadBlueprint line = .ok code
              ∧ (code = ".exit" ∨ caps.load code = .ok ".exit")))
    ∨ (s.editorMode = true ∧ s.editorData = ".exit") := by
  revert hend
  unfold loadBlueprintStep
  split_ifs with hb
  · have hl := load_of_loadBlueprint line hb
    cases hc : caps.loadBlueprint line with
    | error m => simp [Step.reads]
    | ok code =>
      simp only
      rw [reads_after _ _ (by simp)]
      intro hend
      rcases loadStep_ends env caps s code hend with ⟨h1, h2⟩ | ⟨-, h1, h2⟩ | h
      · right; left; exact ⟨hl, h2, Or.inr ⟨code, rfl, Or.inl h1⟩⟩
      · right; left; exact ⟨hl, h2, Or.inr ⟨code, rfl, Or.inr h1⟩⟩
      · right; right; exact h
  · intro hend
    rcases loadStep_ends env caps s line hend with h | ⟨h0, h1, h2⟩ | h
    · left; exact h
    · right; left; exact ⟨h0, h2, Or.inl h1⟩
    · right; right; exact h

theorem repl_ends (env : Env) (caps : Caps) (s : Session) (line : String)
    (hend : (repl env caps s line).reads = false) :
    (line = ".exit" ∧ s.editorMode = false)
    ∨ (startsWith ".load" line = true ∧ s.editorMode = false
        ∧ (caps.load line = .ok ".exit"
          ∨ ∃ code, caps.loadBlueprint line = .ok code
              ∧ (code = ".exit" ∨ caps.load code = .ok ".exit")))
    ∨ (s.editorMode = true ∧ s.editorData = ".exit") := by
  revert hend
  unfold repl
  simp only
  generalize (if s.editorMode = true then "" else s.prompt) = query
  split_ifs
  · simp [Step.reads]
  · simp [Step.reads]
  · simp [Step.reads]
  · simp [Step.reads]
  · rw [reads_after _ _ (by simp)]
    exact loadBlueprintStep_ends env caps s line

theorem logged_append (xs ys : List Event) : logged (xs ++ ys) = logged xs ++ logged ys := by
  induction xs with
  | nil => rfl
  | cons e xs ih => cases e <;> simp [logged, ih]

theorem loggedRed_append (xs ys : List Event) :
    loggedRed (xs ++ ys) = loggedRed xs ++ loggedRed ys := by
  induction xs with
  | nil => rfl
  | cons e xs ih => cases e <;> simp [loggedRed, ih]

theorem loadCalls_append (xs ys : List Event) :
    loadCalls (xs ++ ys) = loadCalls xs ++ loadCalls ys := by
  induction xs with
  | nil => rfl
  | cons e xs ih => cases e <;> simp [loadCalls, ih]

theorem logged_prelude (pre : List Event) (h : ∀ e ∈ pre, e.isPrelude = true) :
    logged pre = [] := by
  induction pre with
  | nil => rfl
  | cons e xs ih =>
    have he := h e (List.mem_cons_self _ _)
    have hx := ih fun e he => h e (List.mem_cons_of_mem _ he)
    cases e <;> simp_all [logged, Event.isPrelude]

theorem loggedRed_prelude (pre : List Event) (h : ∀ e ∈ pre, e.isPrelude = true) :
    loggedRed pre = [] := by
  induction pre with
  | nil => rfl
  | cons e xs ih =>
    have he := h e (List.mem_cons_self _ _)
    have hx := ih fun e he => h e (List.mem_cons_of_mem _ he)
    cases e <;> simp_all [loggedRed, Event.isPrelude]

theorem logged_evaluateLine (env : Env) (caps : Caps) (s : Session) (line : String) :
    logged (evaluateLine env caps s line).events
      = logged [display (awaitEvaluate env caps line)] := by
  rw [evaluateLine_eq]
  rcases debugLog_cases env (awaitEvaluate env caps line) with h | h <;>
    rcases display_cases (awaitEvaluate env caps line) with ⟨e, h2⟩ | ⟨v, h2⟩ <;>
    simp [h, h2, logged]

theorem loggedRed_evaluateLine (env : Env) (caps : Caps) (s : Session) (line : String) :
    loggedRed (evaluateLine env caps s line).events
      = loggedRed [display (awaitEvaluate env caps line)] := by
  rw [evaluateLine_eq]
  rcases debugLog_cases env (awaitEvaluate env caps line) with h | h <;>
    rcases display_cases (awaitEvaluate env caps line) with ⟨e, h2⟩ | ⟨v, h2⟩ <;>
    simp [h, h2, loggedRed]

theorem loadCalls_evaluateLine (env : Env) (caps : Caps) (s : Session) (line : String) :
    loadCalls (evaluateLine env caps s line).events = [] := by
  rw [evaluateLine_eq]
  rcases debugLog_cases env (awaitEvaluate env caps line) with h | h <;>
    rcases display_cases (awaitEvaluate env caps line) with ⟨e, h2⟩ | ⟨v, h2⟩ <;>
    simp [h, h2, loadCalls]

theorem loadCalls_editorStep (env : Env) (caps : Caps) (s : Session) (line : String) :
    loadCalls (editorStep env caps s line).events = [] := by
  unfold editorStep
  simp only [cron, live]
  split_ifs <;> first | exact loadCalls_evaluateLine _ _ _ _ | rfl

theorem loadCalls_loadStep (env : Env) (caps : Caps) (s : Session) (line : String) :
    loadCalls (loadStep env caps s line).events
      = if startsWith ".load" line then [line] else [] := by
  unfold loadStep
  split_ifs
  · cases caps.load line with
    | error m => rfl
    | ok code =>
      show loadCalls ([Event.load line] ++ (editorStep env caps s code).events) = [line]
      rw [loadCalls_append, loadCalls_editorStep]
      rfl
  · exact loadCalls_editorStep env caps s line

theorem running_append (xs ys : List Event) (flag : Bool) :
    running flag (xs ++ ys) = running (running flag xs) ys := by
  induction xs generalizing flag with
  | nil => rfl
  | cons e xs ih => cases e <;> simp [running, ih]

theorem running_prelude (pre : List Event) (h : ∀ e ∈ pre, e.isPrelude = true) (flag : Bool) :
    running flag pre = flag := by
  induction pre with
  | nil => rfl
  | cons e xs ih =>
    have he := h e (List.mem_cons_self _ _)
    have hx := ih fun e he => h e (List.mem_cons_of_mem _ he)
    cases e <;> simp_all [running, Event.isPrelude]

theorem running_evaluateLine (env : Env) (caps : Caps) (s : Session) (line : String)
    (flag : Bool) : running flag (evaluateLine env caps s line).events = true := by
  rw [evaluateLine_eq]
  rcases debugLog_cases env (awaitEvaluate env caps line) with h | h <;>
    rcases display_cases (awaitEvaluate env caps line) with ⟨e, h2⟩ | ⟨v, h2⟩ <;>
    simp [h, h2, running]

theorem ended_cons (e : Event) (evs : List Event) (h : evs ≠ []) :
    ended (e :: evs) = ended evs := by
  cases evs with
  | nil => exact absurd rfl h
  | cons x xs => rfl

theorem ended_append_right (xs ys : List Event) (h : ended (xs ++ ys) = false) :
    ended ys = false := by
  induction xs with
  | nil => exact h
  | cons e xs ih =>
    cases ys with
    | nil => rfl
    | cons y ys =>
      apply ih
      rw [← h]
      exact (ended_cons e (xs ++ y :: ys) (by simp)).symm

theorem ended_of_not_mem (evs : List Event) (hne : evs ≠ []) (h : Event.repl ∉ evs) :
    ended evs = true := by
  induction evs with
  | nil => exact absurd rfl hne
  | cons e evs ih =>
    cases evs with
    | nil =>
      have : e ≠ Event.repl := fun he => h (by simp [he])
      simp [ended, this]
    | cons x xs =>
      rw [ended_cons e (x :: xs) (by simp)]
      exact ih (by simp) fun hm => h (List.mem_cons_of_mem _ hm)

theorem repl_events_ne_nil (env : Env) (caps : Caps) (s : Session) (line : String) :
    (repl env caps s line).events ≠ [] := by
  unfold repl
  simp only
  generalize (if s.editorMode = true then "" else s.prompt) = query
  split_ifs <;> simp [Step.after]

theorem editorStep_running (env : Env) (caps : Caps) (s : Session) (line : String)
    (hreads : (editorStep env caps s line).reads = true) :
    running (!s.editorMode) (editorStep env caps s line).events
      = !(editorStep env caps s line).session.editorMode := by
  revert hreads
  unfold editorStep
  simp only [cron, live]
  split_ifs <;>
    first
    | (intro _; simp_all [running_evaluateLine, evaluateLine_session]; done)
    | simp_all [Step.reads, running]

theorem loadStep_running (env : Env) (caps : Caps) (s : Session) (line : String)
    (hreads : (loadStep env caps s line).reads = true) :
    running (!s.editorMode) (loadStep env caps s line).events
      = !(loadStep env caps s line).session.editorMode := by
  revert hreads
  unfold loadStep
  split_ifs
  · cases caps.load line with
    | error m => simp [running]
    | ok code =>
      simp only
      rw [reads_after _ _ (by simp)]
      intro hreads
      show running _ ([Event.load line] ++ (editorStep env caps s code).events) = _
      rw [running_append]
      exact editorStep_running env caps s code hreads
  · exact editorStep_running env caps s line

theorem loadBlueprintStep_running (env : Env) (caps : Caps) (s : Session) (line : String)
    (hreads : (loadBlueprintStep env caps s line).reads = true) :
    running (!s.editorMode) (loadBlueprintStep env caps s line).events
      = !(loadBlueprintStep env caps s line).session.editorMode := by
  revert hreads
  unfold loadBlueprintStep
  split_ifs
  · cases caps.loadBlueprint line with
    | error m => simp [running]
    | ok code =>
      simp only
      rw [reads_after _ _ (by simp)]
      intro hreads
      show running _ ([Event.loadBlueprint line] ++ (loadStep env caps s code).events) = _
      rw [running_append]
      exact loadStep_running env caps s code hreads
  · exact loadStep_running env caps s line

theorem repl_running (env : Env) (caps : Caps) (s : Session) (line : String)
    (hreads : (repl env caps s line).reads = true) :
    running (!s.editorMode) (repl env caps s line).events
      = !(repl env caps s line).session.editorMode := by
  revert hreads
  unfold repl
  simp only
  generalize (if s.editorMode = true then "" else s.prompt) = query
  split_ifs
  · simp [running]
  · simp [running]
  · simp [running]
  · simp [running]
  · rw [reads_after _ _ (by simp)]
    intro hreads
    show running _ ([Event.question query] ++ (loadBlueprintStep env caps s line).events) = _
    rw [running_append]
    exact loadBlueprintStep_running env caps s line hreads

theorem run_running (env : Env) (inputs : List (Caps × String)) (s : Session)
    (hlive : ended (run env s inputs).events = false) :
    running (!s.editorMode) (run env s inputs).events
      = !(run env s inputs).session.editorMode := by
  induction inputs generalizing s with
  | nil => rfl
  | cons input rest ih =>
    obtain ⟨caps, line⟩ := input
    revert hlive
    unfold run
    simp only
    by_cases hreads : (repl env caps s line).reads = true
    · rw [if_pos hreads]
      intro hlive
      have hrest := ended_append_right _ _ hlive
      show running _ ((repl env caps s line).events
        ++ (run env (repl env caps s line).session rest).events) = _
      rw [running_append, repl_running env caps s line hreads]
      exact ih _ hrest
    · rw [if_neg hreads]
      intro hlive
      have hno : Event.repl ∉ (repl env caps s line).events := by
        simpa [Step.reads] using hreads
      rw [ended_of_not_mem _ (repl_events_ne_nil env caps s line) hno] at hlive
      cases hlive

/-! ## The claims -/

/-- C1 (the code at the failing input): in a Normal-mode session, on the code line `1+1`
whose remote evaluation fails with the message `timeout`, the step shows `undefined` and
never the message; it reads again and leaves the prompt as it was. -/
theorem C1_failure_shows_undefined :
    repl env0 (failing "timeout") (initial "aos> ") "1+1"
      = ⟨initial "aos> ",
          [Event.question "aos> ", Event.spinnerStart, Event.printLive,
            Event.evaluate "1+1" "pid" "jwk", Event.spinnerStop, Event.log none,
            Event.cronStart, Event.rlClose, Event.repl]⟩
    ∧ logged (repl env0 (failing "timeout") (initial "aos> ") "1+1").events ≠ [some "timeout"] := by
  decide

/-- C2 (as stated, refuted): on the Normal-mode code line `1+1` the step evaluates once, yet
`cron.stop()` is not called before the evaluation call, nor anywhere in the step. -/
theorem C2_counterexample :
    evalCalls (repl env0 (answering ⟨.object (some ⟨some "2", none⟩), none⟩ "")
      (initial "aos> ") "1+1").events = ["1+1"]
    ∧ stops (repl env0 (answering ⟨.object (some ⟨some "2", none⟩), none⟩ "")
      (initial "aos> ") "1+1").events = 0
    ∧ ¬ (stops (beforeEval (repl env0 (answering ⟨.object (some ⟨some "2", none⟩), none⟩ "")
          (initial "aos> ") "1+1").events) = 1
        ∧ starts (afterEval (repl env0 (answering ⟨.object (some ⟨some "2", none⟩), none⟩ "")
          (initial "aos> ") "1+1").events) = 1) := by
  decide

/-- C2 (amended): in every step that performs an evaluation, whether the remote call
succeeds or fails and whether the submission is a code line or a submitted editor buffer,
the step calls `cron.stop()` zero times, does not call `cron.start()` before the
evaluation call, and calls `cron.start()` exactly once after it. -/
theorem C2_start_once_after_evaluation (env : Env) (caps : Caps) (s : Session)
    (line : String) (heval : evalCalls (repl env caps s line).events ≠ []) :
    stops (repl env caps s line).events = 0
    ∧ starts (beforeEval (repl env caps s line).events) = 0
    ∧ starts (afterEval (repl env caps s line).events) = 1 := by
  rcases repl_cases env caps s line with h | ⟨s', sub, pre, h, hpre, -⟩
  · exact absurd h heval
  · have hstop : pre.count Event.cronStop = 0 := count_prelude pre hpre _ rfl
    have hstart : pre.count Event.cronStart = 0 := count_prelude pre hpre _ rfl
    rw [h, evaluateLine_eq]
    simp only [Step.after]
    refine ⟨?_, ?_, ?_⟩
    · rcases debugLog_cases env (awaitEvaluate env caps sub) with hd | hd <;>
        rcases display_cases (awaitEvaluate env caps sub) with ⟨e, hs⟩ | ⟨v, hs⟩ <;>
        simp [stops, hd, hs, hstop, List.count_cons]
    · rw [beforeEval_prelude pre _ hpre]
      simp [starts, beforeEval, Event.isEvaluate, hstart, List.count_cons]
    · rw [afterEval_prelude pre _ hpre]
      rcases debugLog_cases env (awaitEvaluate env caps sub) with hd | hd <;>
        rcases display_cases (awaitEvaluate env caps sub) with ⟨e, hs⟩ | ⟨v, hs⟩ <;>
        simp [starts, afterEval, Event.isEvaluate, hd, hs, List.count_cons]

/-- Witness of C2 (amended): a submitted editor buffer whose evaluation fails. -/
theorem C2_start_once_after_evaluation_witness :
    evalCalls (repl env0 (failing "timeout") ⟨true, "a\n", "aos> "⟩ ".done").events ≠ []
    ∧ starts (afterEval (repl env0 (failing "timeout") ⟨true, "a\n", "aos> "⟩ ".done").events)
        = 1 :=
  ⟨by decide,
    (C2_start_once_after_evaluation env0 (failing "timeout") ⟨true, "a\n", "aos> "⟩ ".done"
      (by decide)).2.2⟩

/-- C3: from a Normal-mode session with an empty editor buffer, reading `.editor`, then any
lines that are not all-whitespace, do not begin with `.load` and are none of `.editor`,
`.done`, `.cancel`, then `.done`, causes exactly one evaluation call in total, whose
submission is the concatenation of each line followed by a newline, and ends in Normal mode
with an empty editor buffer. -/
theorem C3_editor_submits_buffer (env : Env) (s : Session) (c0 c1 : Caps)
    (inputs : List (Caps × String))
    (hmode : s.editorMode = false) (hbuf : s.editorData = "")
    (hlines : ∀ input ∈ inputs, trim input.2 ≠ "" ∧ startsWith ".load" input.2 = false
      ∧ input.2 ≠ ".editor" ∧ input.2 ≠ ".done" ∧ input.2 ≠ ".cancel") :
    evalCalls (run env s ((c0, ".editor") :: (inputs ++ [(c1, ".done")]))).events
      = [String.join (inputs.map fun input => input.2 ++ "\n")]
    ∧ (run env s ((c0, ".editor") :: (inputs ++ [(c1, ".done")]))).session.editorMode = false
    ∧ (run env s ((c0, ".editor") :: (inputs ++ [(c1, ".done")]))).session.editorData = "" := by
  obtain ⟨evs, hevs, hrun⟩ := run_editor_capture env inputs [(c1, ".done")]
    ⟨true, s.editorData, s.prompt⟩ rfl hlines
  have hjoin : inputs.foldl (fun b input => b ++ (input.2 ++ "\n")) s.editorData
      = String.join (inputs.map fun input => input.2 ++ "\n") := by
    rw [hbuf, String.join, List.foldl_map]
  have hne := join_lines_ne_exit (inputs.map fun input => input.2)
  rw [List.map_map] at hne
  have hdone := repl_editor_done env c1
    ⟨true, String.join (inputs.map fun input => input.2 ++ "\n"), s.prompt⟩ rfl hne
  have hlast : run env
      ⟨true, String.join (inputs.map fun input => input.2 ++ "\n"), s.prompt⟩ [(c1, ".done")]
      = ⟨(evaluateLine env c1 ⟨false, "", s.prompt⟩
            (String.join (inputs.map fun input => input.2 ++ "\n"))).session,
          Event.question "" :: (evaluateLine env c1 ⟨false, "", s.prompt⟩
            (String.join (inputs.map fun input => input.2 ++ "\n"))).events⟩ := by
    simp only [run, hdone]
    split_ifs <;> simp [Step.after]
  have hall : run env s ((c0, ".editor") :: (inputs ++ [(c1, ".done")]))
      = ⟨(evaluateLine env c1 ⟨false, "", s.prompt⟩
            (String.join (inputs.map fun input => input.2 ++ "\n"))).session,
          [Event.question s.prompt, Event.cronStop,
            Event.log (some "<editor mode> use \x27.done\x27 to submit or \x27.cancel\x27 to cancel"),
            Event.rlClose, Event.repl] ++ (evs ++ ([Event.question ""] ++
              (evaluateLine env c1 ⟨false, "", s.prompt⟩
                (String.join (inputs.map fun input => input.2 ++ "\n"))).events))⟩ := by
    rw [hjoin] at hrun
    simp only [run, repl_editor_enter env c0 s hmode, Step.reads]
    simp [hrun, hlast, Step.after]
  rw [hall]
  refine ⟨?_, ?_, ?_⟩
  · show evalCalls (_ ++ (evs ++ ([Event.question ""] ++ (evaluateLine env c1 _ _).events))) = _
    rw [evalCalls_append, evalCalls_append, evalCalls_append, hevs, evalCalls_evaluateLine]
    rfl
  · simp [evaluateLine_session]
  · simp [evaluateLine_session]

/-- Witness of C3: the lines `a`, `b` are submitted as `a\nb\n`. -/
theorem C3_editor_submits_buffer_witness :
    evalCalls (run env0 (initial "aos> ") ((failing "x", ".editor") ::
      ([(failing "x", "a"), (failing "x", "b")] ++ [(failing "x", ".done")]))).events
      = ["a\nb\n"] :=
  (C3_editor_submits_buffer env0 (initial "aos> ") (failing "x") (failing "x")
    [(failing "x", "a"), (failing "x", "b")] rfl rfl (by decide)).1

/-- C4 (as stated, refuted): the line made of one space is not empty and is no
meta-command, yet in Normal mode it causes no evaluation call. -/
theorem C4_counterexample :
    (" " : String) ≠ ""
    ∧ (" " : String) ∉ [".help", ".monitor", ".unmonitor", ".editor", ".done", ".cancel", ".exit"]
    ∧ startsWith ".load" " " = false
    ∧ (initial "aos> ").editorMode = false
    ∧ evalCalls (repl env0 (answering ⟨.object (some ⟨some "2", none⟩), none⟩ "")
        (initial "aos> ") " ").events = [] := by
  decide

/-- C4 (amended): in Normal mode, every line that is not all-whitespace and matches no
meta-command causes exactly one evaluation call, whose submission is the literal line. -/
theorem C4_code_line_evaluated_once (env : Env) (caps : Caps) (s : Session) (line : String)
    (hmode : s.editorMode = false) (hblank : trim line ≠ "")
    (hmeta : line ∉ [".help", ".monitor", ".unmonitor", ".editor", ".done", ".cancel", ".exit"])
    (hload : startsWith ".load" line = false) :
    evalCalls (repl env caps s line).events = [line] := by
  have hm : line ∉ [".help", ".monitor", ".unmonitor", ".editor", ".exit"] := by
    intro hin
    apply hmeta
    simp only [List.mem_cons, List.mem_singleton, List.mem_nil_iff, or_false] at hin ⊢
    tauto
  rw [repl_code_line env caps s line hmode hblank hm hload]
  show evalCalls ([Event.question s.prompt] ++ (evaluateLine env caps s line).events) = [line]
  rw [evalCalls_append, evalCalls_evaluateLine]
  rfl

/-- Witness of C4 (amended): the code line `1+1`. -/
theorem C4_code_line_evaluated_once_witness :
    (initial "aos> ").editorMode = false ∧ trim "1+1" ≠ ""
    ∧ evalCalls (repl env0 (failing "timeout") (initial "aos> ") "1+1").events = ["1+1"] :=
  ⟨rfl, by decide,
    C4_code_line_evaluated_once env0 (failing "timeout") (initial "aos> ") "1+1" rfl
      (by decide) (by decide) (by decide)⟩

/-- C5: in Editor mode, whatever the buffer holds, the line `.cancel` makes no evaluation
call, empties the buffer, returns to Normal mode, calls `cron.start()` exactly once, and
reads again with the prompt unchanged. -/
theorem C5_cancel_discards (env : Env) (caps : Caps) (s : Session)
    (hmode : s.editorMode = true) :
    repl env caps s ".cancel"
      = ⟨⟨false, "", s.prompt⟩,
          [Event.question "", Event.cronStart, Event.rlClose, Event.repl]⟩
    ∧ evalCalls (repl env caps s ".cancel").events = []
    ∧ starts (repl env caps s ".cancel").events = 1
    ∧ (repl env caps s ".cancel").reads = true := by
  have h : repl env caps s ".cancel"
      = ⟨⟨false, "", s.prompt⟩,
          [Event.question "", Event.cronStart, Event.rlClose, Event.repl]⟩ := by
    have h1 : trim ".cancel" ≠ "" := by decide
    have h2 : startsWith ".load-blueprint" ".cancel" = false := by decide
    have h3 : startsWith ".load" ".cancel" = false := by decide
    simp [repl, loadBlueprintStep, loadStep, editorStep, Step.after, cron, live, hmode, h1,
      h2, h3]
  rw [h]
  refine ⟨rfl, ?_, ?_, ?_⟩ <;> simp [evalCalls, starts, Step.reads]

/-- Witness of C5. -/
theorem C5_cancel_discards_witness :
    (⟨true, "a\nb\n", "aos> "⟩ : Session).editorMode = true
    ∧ (repl env0 (failing "x") ⟨true, "a\nb\n", "aos> "⟩ ".cancel").session
        = ⟨false, "", "aos> "⟩ :=
  ⟨rfl, by rw [(C5_cancel_discards env0 (failing "x") ⟨true, "a\nb\n", "aos> "⟩ rfl).1]⟩

/-- C6: in Normal mode the line `.exit` calls `cron.stop()` exactly once, never
`cron.start()`, makes no evaluation call, shows the exit notice after the stop, and issues
no further read: the loop handles none of the lines that follow. -/
theorem C6_exit_ends_loop (env : Env) (caps : Caps) (s : Session)
    (rest : List (Caps × String)) (hmode : s.editorMode = false) :
    repl env caps s ".exit"
      = ⟨s, [Event.question s.prompt, Event.cronStop, Event.log (some "Exiting..."),
          Event.rlClose]⟩
    ∧ stops (repl env caps s ".exit").events = 1
    ∧ starts (repl env caps s ".exit").events = 0
    ∧ evalCalls (repl env caps s ".exit").events = []
    ∧ (repl env caps s ".exit").reads = false
    ∧ run env s ((caps, ".exit") :: rest) = repl env caps s ".exit" := by
  have h : repl env caps s ".exit"
      = ⟨s, [Event.question s.prompt, Event.cronStop, Event.log (some "Exiting..."),
          Event.rlClose]⟩ := by
    have h1 : trim ".exit" ≠ "" := by decide
    have h2 : startsWith ".load-blueprint" ".exit" = false := by decide
    have h3 : startsWith ".load" ".exit" = false := by decide
    simp [repl, loadBlueprintStep, loadStep, editorStep, Step.after, cron, live, hmode, h1,
      h2, h3]
  simp only [run]
  rw [h]
  refine ⟨rfl, ?_, ?_, ?_, ?_, ?_⟩ <;> simp [evalCalls, stops, starts, Step.reads]

/-- Witness of C6. -/
theorem C6_exit_ends_loop_witness :
    (initial "aos> ").editorMode = false
    ∧ run env0 (initial "aos> ") ((failing "x", ".exit") :: [(failing "x", "1+1")])
        = repl env0 (failing "x") (initial "aos> ") ".exit" :=
  ⟨rfl, (C6_exit_ends_loop env0 (failing "x") (initial "aos> ") [(failing "x", "1+1")]
    rfl).2.2.2.2.2⟩

/-- C7: in either mode, when the line begins with `.load-blueprint` and `loadBlueprint`
throws with message `m`, or begins with `.load` but not `.load-blueprint` and `load` throws
with message `m`, the step shows exactly `m`, makes no evaluation call, touches neither the
session nor the monitor, and reads again. -/
theorem C7_load_failure_shown (env : Env) (caps : Caps) (s : Session) (line m : String)
    (hfail : (startsWith ".load-blueprint" line = true ∧ caps.loadBlueprint line = .error m)
      ∨ (startsWith ".load" line = true ∧ startsWith ".load-blueprint" line = false
          ∧ caps.load line = .error m)) :
    (repl env caps s line).session = s
    ∧ logged (repl env caps s line).events = [some m]
    ∧ evalCalls (repl env caps s line).events = []
    ∧ stops (repl env caps s line).events = 0
    ∧ starts (repl env caps s line).events = 0
    ∧ (repl env caps s line).reads = true := by
  have hl : startsWith ".load" line = true := by
    rcases hfail with ⟨h, -⟩ | ⟨h, -, -⟩
    · exact load_of_loadBlueprint line h
    · exact h
  have hblank := trim_ne_of_load line hl
  have h1 : line ≠ ".help" := by rintro rfl; revert hl; decide
  have h2 : line ≠ ".monitor" := by rintro rfl; revert hl; decide
  have h3 : line ≠ ".unmonitor" := by rintro rfl; revert hl; decide
  rcases hfail with ⟨hb, he⟩ | ⟨-, hb, he⟩
  · have h : repl env caps s line
        = ⟨s, [Event.question (if s.editorMode then "" else s.prompt),
            Event.loadBlueprint line, Event.log (some m), Event.rlClose, Event.repl]⟩ := by
      simp [repl, loadBlueprintStep, Step.after, hblank, h1, h2, h3, hb, he]
    rw [h]
    refine ⟨rfl, ?_, ?_, ?_, ?_, ?_⟩ <;> simp [logged, evalCalls, stops, starts, Step.reads]
  · have h : repl env caps s line
        = ⟨s, [Event.question (if s.editorMode then "" else s.prompt),
            Event.load line, Event.log (some m), Event.rlClose, Event.repl]⟩ := by
      simp [repl, loadBlueprintStep, loadStep, Step.after, hblank, h1, h2, h3, hb, hl, he]
    rw [h]
    refine ⟨rfl, ?_, ?_, ?_, ?_, ?_⟩ <;> simp [logged, evalCalls, stops, starts, Step.reads]

/-- Witness of C7: `.load foo.code` whose loader fails with `file not found`. -/
theorem C7_load_failure_shown_witness :
    (startsWith ".load" ".load foo.code" = true
      ∧ startsWith ".load-blueprint" ".load foo.code" = false
      ∧ (failing "file not found").load ".load foo.code" = .error "file not found")
    ∧ logged (repl env0 (failing "file not found") (initial "aos> ") ".load foo.code").events
        = [some "file not found"]
    ∧ evalCalls (repl env0 (failing "file not found") (initial "aos> ") ".load foo.code").events
        = [] :=
  ⟨⟨by decide, by decide, rfl⟩,
    (C7_load_failure_shown env0 (failing "file not found") (initial "aos> ") ".load foo.code"
      "file not found" (Or.inr ⟨by decide, by decide, rfl⟩)).2.1,
    (C7_load_failure_shown env0 (failing "file not found") (initial "aos> ") ".load foo.code"
      "file not found" (Or.inr ⟨by decide, by decide, rfl⟩)).2.2.1⟩

/-- C8 (as stated, refuted): the payload carries the prompt field `""`, yet after the step
the prompt is still `aos> `, not the payload's prompt. -/
theorem C8_counterexample :
    evalCalls (repl env0 (answering ⟨.object (some ⟨some "2", some ""⟩), none⟩ "")
      (initial "aos> ") "1+1").events = ["1+1"]
    ∧ (repl env0 (answering ⟨.object (some ⟨some "2", some ""⟩), none⟩ "")
      (initial "aos> ") "1+1").session.prompt = "aos> "
    ∧ (repl env0 (answering ⟨.object (some ⟨some "2", some ""⟩), none⟩ "")
      (initial "aos> ") "1+1").session.prompt ≠ "" := by
  decide

/-- C8 (amended): in every step that evaluates a submission, if the payload carries a
prompt field `p` that is not the empty string, the prompt after the step is `p`; if the
payload carries no prompt field, or an empty one, the prompt after the step is the prompt
before it. -/
theorem C8_prompt_follows_payload (env : Env) (caps : Caps) (s : Session)
    (line submission : String)
    (heval : evalCalls (repl env caps s line).events = [submission]) :
    (∀ p, (awaitEvaluate env caps submission).Output.dataPrompt = some p → p ≠ "" →
        (repl env caps s line).session.prompt = p)
    ∧ ((awaitEvaluate env caps submission).Output.dataPrompt = none →
        (repl env caps s line).session.prompt = s.prompt)
    ∧ ((awaitEvaluate env caps submission).Output.dataPrompt = some "" →
        (repl env caps s line).session.prompt = s.prompt) := by
  rcases repl_cases env caps s line with h | ⟨s', sub, pre, h, hpre, hp⟩
  · rw [h] at heval
    cases heval
  · have hsub : sub = submission := by
      rw [h] at heval
      change evalCalls (pre ++ (evaluateLine env caps s' sub).events) = _ at heval
      rw [evalCalls_append, evalCalls_prelude pre hpre, evalCalls_evaluateLine] at heval
      simpa using heval
    subst hsub
    have hs : (repl env caps s line).session.prompt
        = nextPrompt (awaitEvaluate env caps sub) s.prompt := by
      rw [h]
      change (evaluateLine env caps s' sub).session.prompt = _
      rw [evaluateLine_session, hp]
    rw [hs]
    refine ⟨?_, ?_, ?_⟩
    · intro p hprompt hne
      simp [nextPrompt, hprompt, truthy, hne]
    · intro hprompt
      simp [nextPrompt, hprompt, truthy]
    · intro hprompt
      simp [nextPrompt, hprompt, truthy]

/-- Witness of C8 (amended): for `1+1` a stub that returns only the output `2` leaves the
prompt unchanged, and one that also returns the prompt `new> ` replaces it. -/
theorem C8_prompt_follows_payload_witness :
    (repl env0 (answering ⟨.object (some ⟨some "2", none⟩), none⟩ "")
      (initial "aos> ") "1+1").session.prompt = "aos> "
    ∧ (repl env0 (answering ⟨.object (some ⟨some "2", some "new> "⟩), none⟩ "")
      (initial "aos> ") "1+1").session.prompt = "new> " :=
  ⟨(C8_prompt_follows_payload env0 (answering ⟨.object (some ⟨some "2", none⟩), none⟩ "")
      (initial "aos> ") "1+1" "1+1" (by decide)).2.1 (by decide),
    (C8_prompt_follows_payload env0
      (answering ⟨.object (some ⟨some "2", some "new> "⟩), none⟩ "")
      (initial "aos> ") "1+1" "1+1" (by decide)).1 "new> " (by decide) (by decide)⟩

/-- C9: starting from the initial session, after any sequence of input lines and any
outcomes of the capabilities, whenever the session is in Normal mode the editor buffer is
the empty string. -/
theorem C9_buffer_empty_in_normal_mode (env : Env) (prompt : String)
    (inputs : List (Caps × String))
    (hnormal : (run env (initial prompt) inputs).session.editorMode = false) :
    (run env (initial prompt) inputs).session.editorData = "" :=
  run_invariant env inputs (initial prompt) (fun _ => rfl) hnormal

/-- Witness of C9: entering the editor, buffering a line and cancelling. -/
theorem C9_buffer_empty_in_normal_mode_witness :
    (run env0 (initial "aos> ")
      [(failing "x", ".editor"), (failing "x", "a"), (failing "x", ".cancel")]).session.editorMode
      = false
    ∧ (run env0 (initial "aos> ")
      [(failing "x", ".editor"), (failing "x", "a"), (failing "x", ".cancel")]).session.editorData
      = "" :=
  ⟨by decide,
    C9_buffer_empty_in_normal_mode env0 "aos> "
      [(failing "x", ".editor"), (failing "x", "a"), (failing "x", ".cancel")] (by decide)⟩

/-- C10: in either mode a line whose trim is empty calls no capability and neither
`cron.start()` nor `cron.stop()`: the step only shows the prompt, logs `undefined`, closes
the reader and reads again, and the session (mode, buffer and prompt) is unchanged. -/
theorem C10_blank_line_is_inert (env : Env) (caps : Caps) (s : Session) (line : String)
    (hblank : trim line = "") :
    repl env caps s line
      = ⟨s, [Event.question (if s.editorMode then "" else s.prompt), Event.log none,
          Event.rlClose, Event.repl]⟩
    ∧ (repl env caps s line).reads = true := by
  have h : repl env caps s line
      = ⟨s, [Event.question (if s.editorMode then "" else s.prompt), Event.log none,
          Event.rlClose, Event.repl]⟩ := by
    simp [repl, hblank]
  rw [h]
  exact ⟨rfl, by simp [Step.reads]⟩

/-- Witness of C10: a line of blanks and a tab read in Editor mode. -/
theorem C10_blank_line_is_inert_witness :
    trim "  \t " = ""
    ∧ repl env0 (failing "x") ⟨true, "a\n", "aos> "⟩ "  \t "
      = ⟨⟨true, "a\n", "aos> "⟩,
          [Event.question "", Event.log none, Event.rlClose, Event.repl]⟩ :=
  ⟨by decide, (C10_blank_line_is_inert env0 (failing "x") ⟨true, "a\n", "aos> "⟩ "  \t "
    (by decide)).1⟩

/-- C11: in Normal mode the line `.monitor` calls `monitor` exactly once, with the wallet
and the process id of the session, logs what it resolves to verbatim, makes no evaluation
call, and leaves mode, editor buffer and prompt unchanged. -/
theorem C11_monitor_shows_result (env : Env) (caps : Caps) (s : Session)
    (hmode : s.editorMode = false) :
    repl env caps s ".monitor"
      = ⟨s, [Event.question s.prompt, Event.monitor env.jwk env.id,
          Event.log (some (caps.monitor env.jwk env.id)), Event.rlClose, Event.repl]⟩
    ∧ logged (repl env caps s ".monitor").events = [some (caps.monitor env.jwk env.id)]
    ∧ evalCalls (repl env caps s ".monitor").events = [] := by
  have h : repl env caps s ".monitor"
      = ⟨s, [Event.question s.prompt, Event.monitor env.jwk env.id,
          Event.log (some (caps.monitor env.jwk env.id)), Event.rlClose, Event.repl]⟩ := by
    have h1 : trim ".monitor" ≠ "" := by decide
    simp [repl, hmode, h1]
  rw [h]
  exact ⟨rfl, rfl, rfl⟩

/-- Witness of C11. -/
theorem C11_monitor_shows_result_witness :
    (initial "aos> ").editorMode = false
    ∧ logged (repl env0 (failing "x") (initial "aos> ") ".monitor").events
        = [some "monitoring"] :=
  ⟨rfl, (C11_monitor_shows_result env0 (failing "x") (initial "aos> ") rfl).2.1⟩

/-- C12 (as stated, refuted): in Normal mode the line `.load quit.lua`, whose loader returns
the text `.exit`, ends the loop although the line read is not `.exit`. -/
theorem C12_counterexample :
    (".load quit.lua" : String) ≠ ".exit"
    ∧ (repl env0 (answering ⟨.object none, none⟩ ".exit") (initial "aos> ")
        ".load quit.lua").reads = false
    ∧ (repl env0 (answering ⟨.object none, none⟩ ".exit") (initial "aos> ")
        ".load quit.lua").events
      = [Event.question "aos> ", Event.load ".load quit.lua", Event.cronStop,
          Event.log (some "Exiting..."), Event.rlClose] := by
  decide

/-- C12 (amended): a step issues no further read only if, in Normal mode, the line read is
exactly `.exit`, or, in Normal mode, the line begins with `.load` and the text a loader
returned for it is exactly `.exit`, or the session is in Editor mode with an editor buffer
that is exactly `.exit`. -/
theorem C12_loop_ends_only_on_exit (env : Env) (caps : Caps) (s : Session) (line : String)
    (hend : (repl env caps s line).reads = false) :
    (line = ".exit" ∧ s.editorMode = false)
    ∨ (startsWith ".load" line = true ∧ s.editorMode = false
        ∧ (caps.load line = .ok ".exit"
          ∨ ∃ code, caps.loadBlueprint line = .ok code
              ∧ (code = ".exit" ∨ caps.load code = .ok ".exit")))
    ∨ (s.editorMode = true ∧ s.editorData = ".exit") :=
  repl_ends env caps s line hend

/-- Witness of C12 (amended): the line `.exit` read in the initial session. -/
theorem C12_loop_ends_only_on_exit_witness :
    (repl env0 (failing "x") (initial "aos> ") ".exit").reads = false
    ∧ (((".exit" : String) = ".exit" ∧ (initial "aos> ").editorMode = false)
      ∨ (startsWith ".load" ".exit" = true ∧ (initial "aos> ").editorMode = false
          ∧ ((failing "x").load ".exit" = .ok ".exit"
            ∨ ∃ code, (failing "x").loadBlueprint ".exit" = .ok code
                ∧ (code = ".exit" ∨ (failing "x").load code = .ok ".exit")))
      ∨ ((initial "aos> ").editorMode = true ∧ (initial "aos> ").editorData = ".exit")) :=
  ⟨by decide,
    C12_loop_ends_only_on_exit env0 (failing "x") (initial "aos> ") ".exit" (by decide)⟩

/-- C13 (as stated, refuted): the remote call succeeds with the error field `""` and the
output `2`; the step shows `2` as ordinary output and shows no error result. -/
theorem C13_counterexample :
    evalCalls (repl env0 (answering ⟨.object (some ⟨some "2", none⟩), some ""⟩ "")
      (initial "aos> ") "1+1").events = ["1+1"]
    ∧ logged (repl env0 (answering ⟨.object (some ⟨some "2", none⟩), some ""⟩ "")
      (initial "aos> ") "1+1").events = [some "2"]
    ∧ loggedRed (repl env0 (answering ⟨.object (some ⟨some "2", none⟩), some ""⟩ "")
      (initial "aos> ") "1+1").events = [] := by
  decide

/-- C13 (amended): in every step whose evaluation call succeeds with result `r`, if `r`
carries an error field `e` that is not the empty string, the step shows `e` in red and logs
nothing as ordinary output; if `r` carries no error field, or an empty one, the step logs
exactly `output.data?.output` and shows nothing in red. -/
theorem C13_error_or_output (env : Env) (caps : Caps) (s : Session)
    (line submission : String) (r : EvalResult)
    (heval : evalCalls (repl env caps s line).events = [submission])
    (hok : caps.evaluate submission env.id env.jwk = .ok r) :
    (∀ e, r.Error = some e → e ≠ "" →
        loggedRed (repl env caps s line).events = [e]
        ∧ logged (repl env caps s line).events = [])
    ∧ ((r.Error = none ∨ r.Error = some "") →
        logged (repl env caps s line).events = [r.Output.dataOutput]
        ∧ loggedRed (repl env caps s line).events = []) := by
  rcases repl_cases env caps s line with h | ⟨s', sub, pre, h, hpre, -⟩
  · rw [h] at heval
    cases heval
  · have hsub : sub = submission := by
      rw [h] at heval
      change evalCalls (pre ++ (evaluateLine env caps s' sub).events) = _ at heval
      rw [evalCalls_append, evalCalls_prelude pre hpre, evalCalls_evaluateLine] at heval
      simpa using heval
    subst hsub
    have hres : awaitEvaluate env caps sub = r := by simp [awaitEvaluate, hok]
    have hlog : logged (repl env caps s line).events = logged [display r] := by
      rw [h]
      change logged (pre ++ (evaluateLine env caps s' sub).events) = _
      rw [logged_append, logged_prelude pre hpre, logged_evaluateLine, hres]
      rfl
    have hred : loggedRed (repl env caps s line).events = loggedRed [display r] := by
      rw [h]
      change loggedRed (pre ++ (evaluateLine env caps s' sub).events) = _
      rw [loggedRed_append, loggedRed_prelude pre hpre, loggedRed_evaluateLine, hres]
      rfl
    rw [hlog, hred]
    refine ⟨?_, ?_⟩
    · intro e he hne
      simp [display, he, truthy, hne, logged, loggedRed]
    · rintro (he | he) <;> simp [display, he, truthy, logged, loggedRed]

/-- Witness of C13 (amended): a result with the error field `boom` is shown in red, and a
result without error field has its output `2` logged. -/
theorem C13_error_or_output_witness :
    loggedRed (repl env0 (answering ⟨.object (some ⟨some "2", none⟩), some "boom"⟩ "")
      (initial "aos> ") "1+1").events = ["boom"]
    ∧ logged (repl env0 (answering ⟨.object (some ⟨some "2", none⟩), none⟩ "")
      (initial "aos> ") "1+1").events = [some "2"] :=
  ⟨((C13_error_or_output env0 (answering ⟨.object (some ⟨some "2", none⟩), some "boom"⟩ "")
      (initial "aos> ") "1+1" "1+1" ⟨.object (some ⟨some "2", none⟩), some "boom"⟩
      (by decide) rfl).1 "boom" rfl (by decide)).1,
    ((C13_error_or_output env0 (answering ⟨.object (some ⟨some "2", none⟩), none⟩ "")
      (initial "aos> ") "1+1" "1+1" ⟨.object (some ⟨some "2", none⟩), none⟩
      (by decide) rfl).2 (Or.inl rfl)).1⟩

/-- C14: in Editor mode with buffer `b`, a line that is not all-whitespace, does not begin
with `.load` and is none of `.editor`, `.done`, `.cancel` is appended to the buffer with a
newline; the mode stays Editor, and the step only shows the empty prompt, closes the reader
and reads again: no evaluation, no log, no `monitor` or `unmonitor`, no `cron.start()` or
`cron.stop()`. -/
theorem C14_editor_captures_line (env : Env) (caps : Caps) (s : Session) (line : String)
    (hmode : s.editorMode = true) (hblank : trim line ≠ "")
    (hload : startsWith ".load" line = false) (heditor : line ≠ ".editor")
    (hdone : line ≠ ".done") (hcancel : line ≠ ".cancel") :
    repl env caps s line
      = ⟨⟨true, s.editorData ++ (line ++ "\n"), s.prompt⟩,
          [Event.question "", Event.rlClose, Event.repl]⟩
    ∧ (repl env caps s line).reads = true := by
  rw [repl_editor_capture env caps s line hmode hblank hload heditor hdone hcancel]
  exact ⟨rfl, by simp [Step.reads]⟩

/-- Witness of C14: `.exit` typed in Editor mode is buffered, the loop goes on. -/
theorem C14_editor_captures_line_witness :
    (⟨true, "a\n", "aos> "⟩ : Session).editorMode = true
    ∧ repl env0 (failing "x") ⟨true, "a\n", "aos> "⟩ ".exit"
      = ⟨⟨true, "a\n.exit\n", "aos> "⟩, [Event.question "", Event.rlClose, Event.repl]⟩ :=
  ⟨rfl, (C14_editor_captures_line env0 (failing "x") ⟨true, "a\n", "aos> "⟩ ".exit" rfl
    (by decide) (by decide) (by decide) (by decide) (by decide)).1⟩

/-- C15 (as stated, refuted): the line `.load-blueprint chat` whose blueprint expands to the
text `.load chat.lua` makes the step call `load`, on that text. -/
theorem C15_counterexample :
    startsWith ".load-blueprint" ".load-blueprint chat" = true
    ∧ loadCalls (repl env0 (answering ⟨.object none, none⟩ ".load chat.lua") (initial "aos> ")
        ".load-blueprint chat").events = [".load chat.lua"] := by
  decide

/-- C15 (amended): for a line that begins with `.load-blueprint`, the step does not call
`load` when `loadBlueprint` throws, nor when it returns a text that does not begin with
`.load`; when it returns a text that begins with `.load`, the step calls `load` exactly
once, on that text. -/
theorem C15_load_only_on_expansion (env : Env) (caps : Caps) (s : Session) (line : String)
    (hblueprint : startsWith ".load-blueprint" line = true) :
    (∀ m, caps.loadBlueprint line = .error m →
        loadCalls (repl env caps s line).events = [])
    ∧ (∀ code, caps.loadBlueprint line = .ok code → startsWith ".load" code = false →
        loadCalls (repl env caps s line).events = [])
    ∧ (∀ code, caps.loadBlueprint line = .ok code → startsWith ".load" code = true →
        loadCalls (repl env caps s line).events = [code]) := by
  have hl := load_of_loadBlueprint line hblueprint
  have hblank := trim_ne_of_load line hl
  have h1 : line ≠ ".help" := by rintro rfl; revert hl; decide
  have h2 : line ≠ ".monitor" := by rintro rfl; revert hl; decide
  have h3 : line ≠ ".unmonitor" := by rintro rfl; revert hl; decide
  have hrepl : repl env caps s line
      = (loadBlueprintStep env caps s line).after
          [Event.question (if s.editorMode then "" else s.prompt)] := by
    simp [repl, hblank, h1, h2, h3]
  have hcalls : ∀ r : Step, loadCalls
      (r.after [Event.question (if s.editorMode then "" else s.prompt)]).events
      = loadCalls r.events := fun r => by
    show loadCalls ([Event.question _] ++ r.events) = _
    rw [loadCalls_append]
    rfl
  rw [hrepl, hcalls]
  refine ⟨?_, ?_, ?_⟩
  · intro m hm
    simp [loadBlueprintStep, hblueprint, hm, loadCalls]
  · intro code hcode hno
    have : loadBlueprintStep env caps s line
        = (loadStep env caps s code).after [Event.loadBlueprint line] := by
      simp [loadBlueprintStep, hblueprint, hcode]
    rw [this]
    show loadCalls ([Event.loadBlueprint line] ++ (loadStep env caps s code).events) = _
    rw [loadCalls_append, loadCalls_loadStep, hno]
    rfl
  · intro code hcode hyes
    have : loadBlueprintStep env caps s line
        = (loadStep env caps s code).after [Event.loadBlueprint line] := by
      simp [loadBlueprintStep, hblueprint, hcode]
    rw [this]
    show loadCalls ([Event.loadBlueprint line] ++ (loadStep env caps s code).events) = _
    rw [loadCalls_append, loadCalls_loadStep, hyes]
    rfl

/-- Witness of C15 (amended): a blueprint that expands to code not beginning with `.load`
causes no call of `load`. -/
theorem C15_load_only_on_expansion_witness :
    startsWith ".load-blueprint" ".load-blueprint chat" = true
    ∧ loadCalls (repl env0 (answering ⟨.object none, none⟩ "print(1)") (initial "aos> ")
        ".load-blueprint chat").events = [] :=
  ⟨by decide,
    (C15_load_only_on_expansion env0 (answering ⟨.object none, none⟩ "print(1)")
      (initial "aos> ") ".load-blueprint chat" (by decide)).2.1 "print(1)" rfl (by decide)⟩

/-- C16: with the monitor seen as a running flag that `cron.start()` sets and
`cron.stop()` clears, and starting from the initial session with the monitor running, after
any sequence of steps that has not terminated the loop the monitor is running if and only
if the session is in Normal mode. -/
theorem C16_monitor_runs_iff_normal (env : Env) (prompt : String)
    (inputs : List (Caps × String))
    (hlive : ended (run env (initial prompt) inputs).events = false) :
    running true (run env (initial prompt) inputs).events = true
      ↔ (run env (initial prompt) inputs).session.editorMode = false := by
  have h := run_running env inputs (initial prompt) hlive
  have h0 : (!(initial prompt).editorMode) = true := rfl
  rw [h0] at h
  rw [h]
  cases (run env (initial prompt) inputs).session.editorMode <;> simp

/-- Witness of C16: after `.editor` and one buffered line the loop is alive, the session is
in Editor mode and the monitor is stopped. -/
theorem C16_monitor_runs_iff_normal_witness :
    ended (run env0 (initial "aos> ")
      [(failing "x", ".editor"), (failing "x", "a")]).events = false
    ∧ running true (run env0 (initial "aos> ")
      [(failing "x", ".editor"), (failing "x", "a")]).events = false
    ∧ (running true (run env0 (initial "aos> ")
        [(failing "x", ".editor"), (failing "x", "a")]).events = true
      ↔ (run env0 (initial "aos> ")
        [(failing "x", ".editor"), (failing "x", "a")]).session.editorMode = false) :=
  ⟨by decide, by decide,
    C16_monitor_runs_iff_normal env0 "aos> " [(failing "x", ".editor"), (failing "x", "a")]
      (by decide)⟩

/-- C17: in Normal mode, with the editor buffer empty, the lines `.done` and `.cancel` are
code: the step makes exactly one evaluation call whose submission is that literal line, and
the session stays in Normal mode with an empty editor buffer. -/
theorem C17_done_cancel_are_code (env : Env) (caps : Caps) (s : Session) (line : String)
    (hmode : s.editorMode = false) (hbuf : s.editorData = "")
    (hline : line = ".done" ∨ line = ".cancel") :
    evalCalls (repl env caps s line).events = [line]
    ∧ (repl env caps s line).session.editorMode = false
    ∧ (repl env caps s line).session.editorData = "" := by
  have h : repl env caps s line
      = (evaluateLine env caps s line).after [Event.question s.prompt] := by
    rcases hline with rfl | rfl
    · exact repl_code_line env caps s ".done" hmode (by decide) (by decide) (by decide)
    · exact repl_code_line env caps s ".cancel" hmode (by decide) (by decide) (by decide)
  rw [h]
  refine ⟨?_, ?_, ?_⟩
  · show evalCalls ([Event.question s.prompt] ++ (evaluateLine env caps s line).events) = [line]
    rw [evalCalls_append, evalCalls_evaluateLine]
    rfl
  · show (evaluateLine env caps s line).session.editorMode = false
    rw [evaluateLine_session]
    exact hmode
  · show (evaluateLine env caps s line).session.editorData = ""
    rw [evaluateLine_session]
    exact hbuf

/-- Witness of C17: `.cancel` read in the initial session. -/
theorem C17_done_cancel_are_code_witness :
    (initial "aos> ").editorMode = false ∧ (initial "aos> ").editorData = ""
    ∧ evalCalls (repl env0 (failing "x") (initial "aos> ") ".cancel").events = [".cancel"] :=
  ⟨rfl, rfl,
    (C17_done_cancel_are_code env0 (failing "x") (initial "aos> ") ".cancel" rfl rfl
      (Or.inr rfl)).1⟩

end Aos
